import Mathlib

/-!
Shallow embedding of the ECS core of the Test-Pygame-Framework repository:
the entity/component store (`EntityManager`), the aspect query predicate
(`Aspect`), the lifecycle event queue (`EntityManagerEventQueue`), and the
game state machine (`GameStateMachine`).

Modelling conventions:
* Python dicts that the source iterates over are modelled as lists of
  key/value pairs in insertion order (`dlookup` / `dinsert` / `derase`
  mirror `d[k]`, `d[k] = v`, `del d[k]`; real dict states have no
  duplicate keys).
* Python dicts that are only ever accessed pointwise (the per-kind
  component maps and the registration table) are modelled as partial
  functions `key → Option value`, updated with `fupd`.
* A method that can raise returns the (possibly partially mutated) state
  together with an `Except` value: raising an exception in Python leaves
  all mutations performed so far in place.
* Component classes are modelled as opaque string tags; instantiating a
  class applies `mkComponent` to the tag and the call arguments, and the
  runtime type check of instantiated-mode creation compares tags.
-/

abbrev EntityID := Nat
abbrev ComponentName := String
abbrev ClassTag := String

/-- An instantiated component object: its runtime class tag (what Python's
`type(obj)` reports) plus the constructor arguments it carries. -/
structure CompObj where
  cls : ClassTag
  args : List Nat
  kwargs : List (String × Nat)
deriving DecidableEq

/-- `component_cls(*args, **kwargs)` for the class with tag `cls`. -/
def mkComponent (cls : ClassTag) (args : List Nat) (kwargs : List (String × Nat)) : CompObj :=
  ⟨cls, args, kwargs⟩

/-- `NewComponentInfo`: a dict that should have keys `args` and `kwargs`;
a `none` field models the key being absent (the source's `KeyError` path). -/
structure NewComponentInfo where
  args : Option (List Nat)
  kwargs : Option (List (String × Nat))
deriving DecidableEq

/-- The error conditions of the source: the four `ECSError` subclasses,
plus `keyError` for a raw Python `KeyError`/`AttributeError` escaping an
unguarded lookup. -/
inductive ECSErr where
  | invalidComponentName
  | incompleteNewComponentInfo
  | invalidComponentType
  | invalidEntityID
  | keyError
deriving DecidableEq

/-- `EntityManagerEvent`: an event id together with the `entity_id` entry
of its `info` dict. -/
structure EMEvent where
  eventId : Nat
  entityId : EntityID
deriving DecidableEq

def RemoveEntityID : Nat := 0
def EntityAddedID : Nat := 1

/-- `RemoveEntity(info={"entity_id": eid})`. -/
def RemoveEntity (eid : EntityID) : EMEvent := ⟨RemoveEntityID, eid⟩

/-- `EntityAdded(info={"entity_id": eid})`. -/
def EntityAdded (eid : EntityID) : EMEvent := ⟨EntityAddedID, eid⟩

/-- `EntityManagerEventQueue`: a list of buffered events, oldest first. -/
structure EntityManagerEventQueue where
  events : List EMEvent
deriving DecidableEq

/-- `get`: copy the buffer, clear it, return the copy. -/
def EntityManagerEventQueue.get (q : EntityManagerEventQueue) :
    List EMEvent × EntityManagerEventQueue :=
  (q.events, ⟨[]⟩)

/-- `push`: append one event at the end of the buffer. -/
def EntityManagerEventQueue.push (q : EntityManagerEventQueue) (e : EMEvent) :
    EntityManagerEventQueue :=
  ⟨q.events ++ [e]⟩

/-- A sequence of `push` calls, oldest first. -/
def EntityManagerEventQueue.pushAll (q : EntityManagerEventQueue) (es : List EMEvent) :
    EntityManagerEventQueue :=
  es.foldl EntityManagerEventQueue.push q

/- Dictionary operations on insertion-ordered pair lists. -/

/-- `d[k]` as an `Option`: the value at the first pair whose key is `k`. -/
def dlookup {α β : Type} [DecidableEq α] (k : α) : List (α × β) → Option β
  | [] => none
  | p :: rest => if p.1 = k then some p.2 else dlookup k rest

/-- `d[k] = v`: replace the value in place when the key is present,
append at the end otherwise (Python dict assignment order semantics). -/
def dinsert {α β : Type} [DecidableEq α] (k : α) (v : β) (d : List (α × β)) :
    List (α × β) :=
  if (dlookup k d).isSome then d.map (fun p => if p.1 = k then (k, v) else p)
  else d ++ [(k, v)]

/-- `del d[k]`: drop every pair with key `k` (on duplicate-free states,
exactly the Python delete). -/
def derase {α β : Type} [DecidableEq α] (k : α) (d : List (α × β)) : List (α × β) :=
  d.filter (fun p => p.1 ≠ k)

/-- Pointwise update of a partial-function map. -/
def fupd {α β : Type} [DecidableEq α] (f : α → β) (k : α) (v : β) : α → β :=
  fun k' => if k' = k then v else f k'

theorem dlookup_dinsert_self {α β : Type} [DecidableEq α] (k : α) (v : β)
    (d : List (α × β)) : dlookup k (dinsert k v d) = some v := by
  unfold dinsert
  by_cases h : (dlookup k d).isSome
  · simp only [h, if_true]
    induction d with
    | nil => simp [dlookup] at h
    | cons p rest ih =>
      by_cases hp : p.1 = k
      · simp [dlookup, hp]
      · simp only [dlookup, hp, if_false] at h
        simp [dlookup, hp, ih h]
  · simp only [h, if_false]
    induction d with
    | nil => simp [dlookup]
    | cons p rest ih =>
      by_cases hp : p.1 = k
      · simp [dlookup, hp] at h
      · simp only [dlookup, hp, if_false] at h ⊢
        exact ih h

theorem dlookup_map_replace {α β : Type} [DecidableEq α] (k k' : α) (v : β)
    (d : List (α × β)) (hne : k' ≠ k) :
    dlookup k' (d.map (fun p => if p.1 = k then (k, v) else p)) = dlookup k' d := by
  induction d with
  | nil => rfl
  | cons p rest ih =>
    by_cases hp : p.1 = k
    · have hp' : ¬ p.1 = k' := by
        intro h
        exact hne (h.symm.trans hp)
      have hk : ¬ k = k' := fun h => hne h.symm
      simp only [List.map_cons, hp, if_true, dlookup, hk, if_false, hp']
      exact ih
    · by_cases hp' : p.1 = k'
      · simp [dlookup, hp, hp', hne, Ne.symm hne]
      · simp only [List.map_cons, hp, if_false, dlookup, hp']
        exact ih

theorem dlookup_append_single {α β : Type} [DecidableEq α] (k k' : α) (v : β)
    (d : List (α × β)) (hne : k' ≠ k) :
    dlookup k' (d ++ [(k, v)]) = dlookup k' d := by
  induction d with
  | nil => simp [dlookup, Ne.symm hne]
  | cons p rest ih =>
    by_cases hp : p.1 = k'
    · simp [dlookup, hp]
    · simp only [List.cons_append, dlookup, hp, if_false]
      exact ih

theorem dlookup_dinsert_ne {α β : Type} [DecidableEq α] (k k' : α) (v : β)
    (d : List (α × β)) (hne : k' ≠ k) :
    dlookup k' (dinsert k v d) = dlookup k' d := by
  unfold dinsert
  by_cases h : (dlookup k d).isSome
  · simp only [h, if_true]
    exact dlookup_map_replace k k' v d hne
  · simp only [h, if_false]
    exact dlookup_append_single k k' v d hne

theorem dlookup_derase_self {α β : Type} [DecidableEq α] (k : α)
    (d : List (α × β)) : dlookup k (derase k d) = none := by
  induction d with
  | nil => rfl
  | cons p rest ih =>
    by_cases hp : p.1 = k
    · simp only [derase, List.filter_cons] at ih ⊢
      simpa [hp] using ih
    · simp only [derase, List.filter_cons] at ih ⊢
      simpa [hp, dlookup] using ih

theorem dlookup_derase_ne {α β : Type} [DecidableEq α] (k k' : α)
    (d : List (α × β)) (hne : k' ≠ k) :
    dlookup k' (derase k d) = dlookup k' d := by
  induction d with
  | nil => rfl
  | cons p rest ih =>
    by_cases hp : p.1 = k
    · have hp' : ¬ p.1 = k' := by
        intro h
        exact hne (h.symm.trans hp)
      simp only [derase, List.filter_cons] at ih ⊢
      simpa [hp, dlookup, hp', hne, Ne.symm hne] using ih
    · by_cases hp' : p.1 = k'
      · simp [derase, List.filter_cons, hp, dlookup, hp', hne, Ne.symm hne]
      · simp only [derase, List.filter_cons] at ih ⊢
        simpa [hp, dlookup, hp'] using ih

/- The Aspect query predicate (aspect.py). -/

/-- `Aspect`: the frozensets `_and_components`, `_optional_components`
and `_xor_components` built by `__init__`. -/
structure Aspect where
  mandatory : Finset ComponentName
  optional : Finset ComponentName
  either_or : Finset (Finset ComponentName)
deriving DecidableEq

/-- `Aspect(mandatory, optional, either_or)` from iterables; the source's
defaults are `optional=()` and `either_or=((),)`. -/
def Aspect.ofLists (mandatory : List ComponentName) (optional : List ComponentName)
    (either_or : List (List ComponentName)) : Aspect :=
  ⟨mandatory.toFinset, optional.toFinset, (either_or.map List.toFinset).toFinset⟩

/-- `flat_either_or`: the union of all either-or groups. -/
def Aspect.flat_either_or (a : Aspect) : Finset ComponentName :=
  a.either_or.biUnion id

/-- `all`: `mandatory | optional | flat_either_or`. -/
def Aspect.all (a : Aspect) : Finset ComponentName :=
  a.mandatory ∪ a.optional ∪ a.flat_either_or

/-- `is_matched`: `component_names >= self._and_components and
all(self._xor(component_names))`, where `_xor` yields
`len(component_names & options) == 1` for each either-or group. -/
def Aspect.is_matched (a : Aspect) (component_names : Finset ComponentName) : Prop :=
  a.mandatory ⊆ component_names ∧
    ∀ g ∈ a.either_or, (component_names ∩ g).card = 1

instance (a : Aspect) (s : Finset ComponentName) : Decidable (a.is_matched s) :=
  inferInstanceAs (Decidable (_ ∧ ∀ g ∈ a.either_or, (s ∩ g).card = 1))

/-- The set of names the `xor` generator yields on `component_names`: for
each group whose intersection with `component_names` has exactly one
element, that element. -/
def Aspect.xorPicks (a : Aspect) (component_names : Finset ComponentName) :
    Finset ComponentName :=
  a.either_or.biUnion
    (fun g => if (component_names ∩ g).card = 1 then component_names ∩ g else ∅)

/-- C4: `A.is_matched(S)` holds iff `S ⊇ A.mandatory` and every either-or
group of `A` meets `S` in exactly one element; the `optional` field never
affects the result (replacing it by any other set leaves `is_matched`
unchanged). -/
theorem C4_is_matched_characterisation (a : Aspect) (s : Finset ComponentName) :
    (a.is_matched s ↔
      (a.mandatory ⊆ s ∧ ∀ g ∈ a.either_or, (s ∩ g).card = 1)) ∧
    ∀ opt : Finset ComponentName,
      (Aspect.mk a.mandatory opt a.either_or).is_matched s ↔ a.is_matched s := by
  constructor
  · exact Iff.rfl
  · intro opt
    exact Iff.rfl

/-- C7: the event queue is FIFO with destructive, idempotent drain:
after any sequence of pushes, `get` returns the prior buffer followed by
the pushed events in push order, leaves the buffer empty, a second `get`
returns the empty list, and the first `get` is nonempty whenever
something is buffered. -/
theorem C7_event_queue_fifo_drain (q : EntityManagerEventQueue) (es : List EMEvent) :
    ((q.pushAll es).get.1 = q.events ++ es ∧
      (q.pushAll es).get.2.events = [] ∧
      (q.pushAll es).get.2.get.1 = []) ∧
    (q.events ≠ [] → q.get.1 ≠ []) := by
  have hpush : ∀ (l : List EMEvent) (q' : EntityManagerEventQueue),
      (q'.pushAll l).events = q'.events ++ l := by
    intro l
    induction l with
    | nil => intro q'; simp [EntityManagerEventQueue.pushAll]
    | cons e rest ih =>
      intro q'
      simp [EntityManagerEventQueue.pushAll, EntityManagerEventQueue.push] at ih ⊢
      simp [ih]
  refine ⟨⟨?_, rfl, rfl⟩, ?_⟩
  · simpa [EntityManagerEventQueue.get] using hpush es q
  · intro h
    simpa [EntityManagerEventQueue.get] using h

/-- Witness for C7 at a concrete queue holding one event. -/
theorem C7_event_queue_fifo_drain_witness :
    (⟨[EntityAdded 0]⟩ : EntityManagerEventQueue).events ≠ [] ∧
      (⟨[EntityAdded 0]⟩ : EntityManagerEventQueue).get.1 ≠ [] := by
  refine ⟨by decide, ?_⟩
  exact (C7_event_queue_fifo_drain ⟨[EntityAdded 0]⟩ []).2 (by decide)

/-- C10: an aspect built with the source's default `either_or = ((),)`
contains the empty group, whose intersection with any set is empty, so
`is_matched` is false on every set of component names — even supersets of
the mandatory set. -/
theorem C10_default_either_or_never_matches
    (mandatory optional : List ComponentName) (s : Finset ComponentName) :
    ¬ (Aspect.ofLists mandatory optional [[]]).is_matched s := by
  intro h
  have hmem : (∅ : Finset ComponentName) ∈ (Aspect.ofLists mandatory optional [[]]).either_or := by
    simp [Aspect.ofLists]
  have := h.2 ∅ hmem
  simp at this

/- The entity/component store (entity_manager.py). -/

/-- Iterate a Python set: its elements as a duplicate-free list, in
sorted order (standing in for Python's unspecified set iteration
order). Implemented with insertion sort so that it reduces inside the
kernel on concrete states. -/
def setList {A : Type} [LinearOrder A] (s : Finset A) : List A :=
  Quot.liftOn s.val (List.insertionSort (fun a b => a ≤ b))
    (fun l1 l2 hp =>
      List.eq_of_perm_of_sorted
        ((List.perm_insertionSort _ l1).trans
          ((Quotient.exact (Quot.sound hp)).trans (List.perm_insertionSort _ l2).symm))
        (List.sorted_insertionSort _ l1) (List.sorted_insertionSort _ l2))

theorem mem_setList {A : Type} [LinearOrder A] (s : Finset A) (a : A) :
    a ∈ setList s ↔ a ∈ s := by
  rcases s with ⟨m, hnd⟩
  induction m using Quotient.inductionOn with
  | h l =>
    have hp : List.Perm (setList ⟨Quotient.mk _ l, hnd⟩) l :=
      List.perm_insertionSort _ l
    rw [hp.mem_iff]
    simp [Finset.mem_mk]

theorem setList_nodup {A : Type} [LinearOrder A] (s : Finset A) :
    (setList s).Nodup := by
  rcases s with ⟨m, hnd⟩
  induction m using Quotient.inductionOn with
  | h l =>
    have hp : List.Perm (setList ⟨Quotient.mk _ l, hnd⟩) l :=
      List.perm_insertionSort _ l
    exact hp.nodup_iff.mpr hnd

/-- `EntityManager` state: `entities` (dict entity id → attached-kind
set, iterated by the query functions, hence a pair list), `components`
(dict kind → dict entity id → instance, only accessed pointwise),
the embedded event queue, `_component_classes`, `_entities_to_remove`
(a Python set, modelled as a duplicate-free list) and
`_next_entity_id`. -/
structure EntityManager where
  entities : List (EntityID × Finset ComponentName)
  components : ComponentName → Option (EntityID → Option CompObj)
  events : EntityManagerEventQueue
  component_classes : ComponentName → Option ClassTag
  entities_to_remove : List EntityID
  next_entity_id : Nat

/-- The stored instance for `(name, eid)`, `none` when either dict lookup
misses. -/
def centry (comps : ComponentName → Option (EntityID → Option CompObj))
    (name : ComponentName) (eid : EntityID) : Option CompObj :=
  (comps name).bind (fun cmap => cmap eid)

/-- `componentEntry em name eid`: the instance the store holds for entity
`eid` under kind `name`, if any. -/
def componentEntry (em : EntityManager) (name : ComponentName) (eid : EntityID) :
    Option CompObj :=
  centry em.components name eid

/-- `register_component`: `self._component_classes[name] = cls;
self.components[name] = {}`. -/
def EntityManager.register_component (em : EntityManager) (component_name : ComponentName)
    (component_cls : ClassTag) : EntityManager :=
  { em with
    component_classes := fupd em.component_classes component_name (some component_cls),
    components := fupd em.components component_name (some (fun _ => none)) }

/-- `live_entities`: `set(self.entities.keys())`. -/
def EntityManager.live_entities (em : EntityManager) : Finset EntityID :=
  (em.entities.map Prod.fst).toFinset

/-- `_is_component_names_valid`: `component_names <= self.registered_components`,
i.e. every supplied name is a key of `_component_classes`. -/
def EntityManager.is_component_names_valid (em : EntityManager)
    (component_names : Finset ComponentName) : Prop :=
  ∀ n ∈ component_names, (em.component_classes n).isSome

instance (em : EntityManager) (s : Finset ComponentName) :
    Decidable (em.is_component_names_valid s) :=
  inferInstanceAs (Decidable (∀ n ∈ s, (em.component_classes n).isSome))

/-- `add_component_to_entity`: check the entity is live, check the kind is
registered, read `args`/`kwargs` from the info dict (raising
`IncompleteNewComponentInfo` when a key is missing), then construct and
insert/overwrite the instance. -/
def EntityManager.add_component_to_entity (em : EntityManager) (entity_id : EntityID)
    (component_name : ComponentName) (new_component_info : NewComponentInfo) :
    EntityManager × Except ECSErr Unit :=
  if entity_id ∈ em.live_entities then
    if (em.component_classes component_name).isSome then
      match new_component_info.args, new_component_info.kwargs with
      | some args, some kwargs =>
        match em.component_classes component_name, em.components component_name with
        | some cls, some cmap =>
          let cmap' := fupd cmap entity_id (some (mkComponent cls args kwargs))
          ({ em with components := fupd em.components component_name (some cmap') },
           Except.ok ())
        | _, _ => (em, Except.error ECSErr.keyError)
      | _, _ => (em, Except.error ECSErr.incompleteNewComponentInfo)
    else (em, Except.error ECSErr.invalidComponentName)
  else (em, Except.error ECSErr.invalidEntityID)

/-- The `components` argument of `create_entity`: a dict of per-kind
construction infos when `instantiated=False`, of already-built objects
when `instantiated=True` (in insertion order). -/
inductive CreateInput where
  | newInfos (l : List (ComponentName × NewComponentInfo))
  | objs (l : List (ComponentName × CompObj))

/-- `components.keys()` of a `create_entity` argument. -/
def CreateInput.names : CreateInput → List ComponentName
  | CreateInput.newInfos l => l.map Prod.fst
  | CreateInput.objs l => l.map Prod.fst

/-- The non-instantiated `create_entity` loop: per kind, read
`args`/`kwargs` (raising `IncompleteNewComponentInfo` on a missing key,
leaving earlier writes in place), construct via the registered class and
write `self.components[name][current_entity_id]`. -/
def createLoopNew (cls_of : ComponentName → Option ClassTag) (eid : EntityID) :
    List (ComponentName × NewComponentInfo) →
    (ComponentName → Option (EntityID → Option CompObj)) →
    (ComponentName → Option (EntityID → Option CompObj)) × Except ECSErr Unit
  | [], comps => (comps, Except.ok ())
  | (name, info) :: rest, comps =>
    match info.args, info.kwargs with
    | some args, some kwargs =>
      match cls_of name, comps name with
      | some cls, some cmap =>
        createLoopNew cls_of eid rest
          (fupd comps name (some (fupd cmap eid (some (mkComponent cls args kwargs)))))
      | _, _ => (comps, Except.error ECSErr.keyError)
    | _, _ => (comps, Except.error ECSErr.incompleteNewComponentInfo)

/-- The instantiated `create_entity` loop: per kind, compare the object's
runtime type with the registered class (raising
`InvalidComponentTypeError` on disagreement, leaving earlier writes in
place), then write the object. -/
def createLoopInst (cls_of : ComponentName → Option ClassTag) (eid : EntityID) :
    List (ComponentName × CompObj) →
    (ComponentName → Option (EntityID → Option CompObj)) →
    (ComponentName → Option (EntityID → Option CompObj)) × Except ECSErr Unit
  | [], comps => (comps, Except.ok ())
  | (name, obj) :: rest, comps =>
    match cls_of name with
    | some expected =>
      if obj.cls = expected then
        match comps name with
        | some cmap =>
          createLoopInst cls_of eid rest (fupd comps name (some (fupd cmap eid (some obj))))
        | none => (comps, Except.error ECSErr.keyError)
      else (comps, Except.error ECSErr.invalidComponentType)
    | none => (comps, Except.error ECSErr.keyError)

/-- `create_entity`: validate all supplied kind names against the
registered set, then run the mode's construction loop, record the
attached-kind set, bump `_next_entity_id`, push `EntityAdded` and return
the new id. -/
def EntityManager.create_entity (em : EntityManager) (components : CreateInput) :
    EntityManager × Except ECSErr EntityID :=
  if em.is_component_names_valid components.names.toFinset then
    let current_entity_id := em.next_entity_id
    match components with
    | CreateInput.newInfos l =>
      match createLoopNew em.component_classes current_entity_id l em.components with
      | (comps, Except.ok _) =>
        ({ em with
            components := comps,
            entities := dinsert current_entity_id (l.map Prod.fst).toFinset em.entities,
            next_entity_id := em.next_entity_id + 1,
            events := em.events.push (EntityAdded current_entity_id) },
         Except.ok current_entity_id)
      | (comps, Except.error e) => ({ em with components := comps }, Except.error e)
    | CreateInput.objs l =>
      match createLoopInst em.component_classes current_entity_id l em.components with
      | (comps, Except.ok _) =>
        ({ em with
            components := comps,
            entities := dinsert current_entity_id (l.map Prod.fst).toFinset em.entities,
            next_entity_id := em.next_entity_id + 1,
            events := em.events.push (EntityAdded current_entity_id) },
         Except.ok current_entity_id)
      | (comps, Except.error e) => ({ em with components := comps }, Except.error e)
  else (em, Except.error ECSErr.invalidComponentName)

/-- The deletion loop of immediate `remove_entity`:
`del self.components[component_name][entity_id]` for every attached kind
(a missing key raises `KeyError`, leaving earlier deletions in place). -/
def deleteComponents (eid : EntityID) :
    List ComponentName →
    (ComponentName → Option (EntityID → Option CompObj)) →
    (ComponentName → Option (EntityID → Option CompObj)) × Except ECSErr Unit
  | [], comps => (comps, Except.ok ())
  | name :: rest, comps =>
    match comps name with
    | some cmap =>
      if (cmap eid).isSome then
        deleteComponents eid rest (fupd comps name (some (fupd cmap eid none)))
      else (comps, Except.error ECSErr.keyError)
    | none => (comps, Except.error ECSErr.keyError)

/-- `remove_entity`: not-found error when the id is not live; immediate
mode pushes `RemoveEntity`, deletes every attached component entry, then
deletes the entity's attached-kind set; deferred mode only adds the id to
`_entities_to_remove`. -/
def EntityManager.remove_entity (em : EntityManager) (entity_id : EntityID)
    (immediate : Bool) : EntityManager × Except ECSErr Unit :=
  if entity_id ∈ em.live_entities then
    if immediate then
      let em1 : EntityManager :=
        { em with events := em.events.push (RemoveEntity entity_id) }
      match dlookup entity_id em1.entities with
      | some attached =>
        match deleteComponents entity_id (setList attached) em1.components with
        | (comps, Except.ok _) =>
          ({ em1 with
              components := comps,
              entities := derase entity_id em1.entities },
           Except.ok ())
        | (comps, Except.error e) => ({ em1 with components := comps }, Except.error e)
      | none => (em1, Except.error ECSErr.keyError)
    else
      ({ em with entities_to_remove :=
          if entity_id ∈ em.entities_to_remove then em.entities_to_remove
          else em.entities_to_remove ++ [entity_id] },
       Except.ok ())
  else (em, Except.error ECSErr.invalidEntityID)

/-- The loop of `remove_queued_entities` over the pending-removal set. -/
def removeLoop : List EntityID → EntityManager → EntityManager × Except ECSErr Unit
  | [], em => (em, Except.ok ())
  | eid :: rest, em =>
    match em.remove_entity eid true with
    | (em', Except.ok _) => removeLoop rest em'
    | (em', Except.error e) => (em', Except.error e)

/-- `remove_queued_entities`: immediately remove every pending entity,
then clear the pending set (the clear is not reached when a removal
raises). -/
def EntityManager.remove_queued_entities (em : EntityManager) :
    EntityManager × Except ECSErr Unit :=
  match removeLoop em.entities_to_remove em with
  | (em', Except.ok _) => ({ em' with entities_to_remove := [] }, Except.ok ())
  | (em', Except.error e) => (em', Except.error e)

/-- `_group_entity_pattern_match`: entities whose attached set passes the
mandatory filter (with the validity conjunct of the source's lambda)
intersected with those passing every either-or group. -/
def EntityManager.group_entity_pattern_match (em : EntityManager) (pattern : Aspect) :
    Finset EntityID :=
  ((em.entities.filter (fun p =>
      decide (em.is_component_names_valid (p.2 ∪ pattern.mandatory)) &&
        decide (pattern.mandatory ⊆ p.2))).map Prod.fst).toFinset ∩
  ((em.entities.filter (fun p =>
      decide (∀ g ∈ pattern.either_or, (p.2 ∩ g).card = 1))).map Prod.fst).toFinset

/-- The entity-view dict comprehension shared by `get_matching_entity`
and `_get_matching_entity_no_optional`: over the attached kinds, keep a
kind when it is mandatory/optional or an either-or pick, pairing it with
the stored instance (a missing storage entry raises `KeyError`). -/
def buildViewList (comps : ComponentName → Option (EntityID → Option CompObj))
    (eid : EntityID) (pattern : Aspect) (attached : Finset ComponentName) :
    List ComponentName → Except ECSErr (List (ComponentName × CompObj))
  | [] => Except.ok []
  | name :: rest =>
    if name ∈ pattern.mandatory ∪ pattern.optional ∨ name ∈ pattern.xorPicks attached then
      match centry comps name eid with
      | some obj =>
        (buildViewList comps eid pattern attached rest).map (fun v => (name, obj) :: v)
      | none => Except.error ECSErr.keyError
    else buildViewList comps eid pattern attached rest

/-- `get_matching_entity`: validate the aspect's kinds, raise a not-found
error for an unknown id, return `none` (no match, not an error) when the
entity fails the aspect, else build the filtered view. -/
def EntityManager.get_matching_entity (em : EntityManager) (entity_id : EntityID)
    (pattern : Aspect) : Except ECSErr (Option (List (ComponentName × CompObj))) :=
  if em.is_component_names_valid pattern.all then
    match dlookup entity_id em.entities with
    | none => Except.error ECSErr.invalidEntityID
    | some attached =>
      if pattern.is_matched attached then
        (buildViewList em.components entity_id pattern attached (setList attached)).map some
      else Except.ok none
  else Except.error ECSErr.invalidComponentName

/-- The view-collection loop of `get_matching_entities`, one
`_get_matching_entity_no_optional` call per matching entity. -/
def collectViews (em : EntityManager) (pattern : Aspect) :
    List EntityID → Except ECSErr (List (EntityID × List (ComponentName × CompObj)))
  | [] => Except.ok []
  | eid :: rest =>
    match dlookup eid em.entities with
    | none => Except.error ECSErr.invalidEntityID
    | some attached =>
      match buildViewList em.components eid pattern attached (setList attached) with
      | Except.ok view => (collectViews em pattern rest).map (fun l => (eid, view) :: l)
      | Except.error e => Except.error e

/-- `get_matching_entities`: validate the aspect's kinds, then build one
view per entity found by `_group_entity_pattern_match`. -/
def EntityManager.get_matching_entities (em : EntityManager) (pattern : Aspect) :
    Except ECSErr (List (EntityID × List (ComponentName × CompObj))) :=
  if em.is_component_names_valid pattern.all then
    collectViews em pattern (setList (em.group_entity_pattern_match pattern))
  else Except.error ECSErr.invalidComponentName

/- Supporting lemmas. -/

theorem mem_keys_of_dlookup {α β : Type} [DecidableEq α] {k : α} {v : β}
    {d : List (α × β)} (h : dlookup k d = some v) : k ∈ (d.map Prod.fst).toFinset := by
  rw [List.mem_toFinset]
  induction d with
  | nil => simp [dlookup] at h
  | cons p rest ih =>
    by_cases hp : p.1 = k
    · simp only [List.map_cons, List.mem_cons]
      exact Or.inl hp.symm
    · rw [dlookup, if_neg hp] at h
      simp only [List.map_cons, List.mem_cons]
      exact Or.inr (ih h)

theorem not_mem_keys_derase {α β : Type} [DecidableEq α] (k : α) (d : List (α × β)) :
    k ∉ ((derase k d).map Prod.fst).toFinset := by
  intro hmem
  rw [List.mem_toFinset, List.mem_map] at hmem
  obtain ⟨p, hp, hk⟩ := hmem
  rw [derase, List.mem_filter] at hp
  have hne : p.1 ≠ k := by simpa using hp.2
  exact hne hk

theorem mem_keys_derase_mono {α β : Type} [DecidableEq α] (k k' : α) (d : List (α × β))
    (h : k' ∈ ((derase k d).map Prod.fst).toFinset) : k' ∈ (d.map Prod.fst).toFinset := by
  rw [List.mem_toFinset, List.mem_map] at h ⊢
  obtain ⟨p, hp, hk⟩ := h
  rw [derase, List.mem_filter] at hp
  exact ⟨p, hp.1, hk⟩

/-- On any error, `create_entity` has (at most) mutated the component
maps: the entity table, counter, event queue, registrations and pending
set are those of the input state. -/
theorem create_entity_error_shape (em : EntityManager) (input : CreateInput)
    (e : ECSErr) (he : (em.create_entity input).2 = Except.error e) :
    ∃ comps, (em.create_entity input).1 = { em with components := comps } := by
  by_cases hv : em.is_component_names_valid input.names.toFinset
  · cases input with
    | newInfos l =>
      simp only [EntityManager.create_entity, hv, if_true] at he ⊢
      rcases h : createLoopNew em.component_classes em.next_entity_id l em.components with
        ⟨comps, r⟩
      cases r with
      | ok v =>
        rw [h] at he
        exact Except.noConfusion he
      | error e' => exact ⟨comps, rfl⟩
    | objs l =>
      simp only [EntityManager.create_entity, hv, if_true] at he ⊢
      rcases h : createLoopInst em.component_classes em.next_entity_id l em.components with
        ⟨comps, r⟩
      cases r with
      | ok v =>
        rw [h] at he
        exact Except.noConfusion he
      | error e' => exact ⟨comps, rfl⟩
  · simp only [EntityManager.create_entity, hv, if_false]
    exact ⟨em.components, rfl⟩

/- Shared concrete scenario states. -/

/-- The empty store: `EntityManager()` with nothing registered. -/
def emEmpty : EntityManager := ⟨[], fun _ => none, ⟨[]⟩, fun _ => none, [], 0⟩

/-- `emEmpty` after registering kinds `A` and `B`. -/
def emAB : EntityManager :=
  (emEmpty.register_component "A" "ClsA").register_component "B" "ClsB"

/-- `emAB` after `create_entity({"A": {"args": [1], "kwargs": {}}})`:
entity `0` is live with attached set `{"A"}`. -/
def emA1 : EntityManager :=
  (emAB.create_entity (CreateInput.newInfos [("A", ⟨some [1], some []⟩)])).1

/-- A literal presentation of a one-entity store (entity `0` holding one
`A` component, kinds `A` and `B` registered), used as a witness state. -/
def emLit : EntityManager :=
  ⟨[(0, {"A"})],
   fun n =>
     if n = "A" then some (fun e => if e = 0 then some (mkComponent "ClsA" [1] []) else none)
     else if n = "B" then some (fun _ => none) else none,
   ⟨[]⟩,
   fun n => if n = "A" then some "ClsA" else if n = "B" then some "ClsB" else none,
   [], 1⟩

/-- C3: `register_component` is idempotent per `(name, factory)`: a
second identical call leaves the whole store state — registered kinds,
that kind's (re-emptied) component map, entity table, counter, pending
set and event queue — exactly as after the first call. -/
theorem C3_register_component_idempotent (em : EntityManager)
    (component_name : ComponentName) (component_cls : ClassTag) :
    (em.register_component component_name component_cls).register_component
        component_name component_cls =
      em.register_component component_name component_cls := by
  unfold EntityManager.register_component
  congr 1
  · funext k
    by_cases h : k = component_name <;> simp [fupd, h]
  · funext k
    by_cases h : k = component_name <;> simp [fupd, h]

/-- C1 counterexample: with kinds `A` and `B` registered, a
non-instantiated `create_entity` whose `A` info is complete but whose `B`
info lacks the `kwargs` key raises the incomplete-construction error
*after* writing the `A` component for the prospective id `0`: the
component maps are not as they were before the call, so the call is not
all-or-nothing. (Entity table, counter and queue are unchanged.) -/
theorem C1_counterexample :
    (emAB.create_entity (CreateInput.newInfos
        [("A", ⟨some [1], some []⟩), ("B", ⟨some [2], none⟩)])).2 =
      Except.error ECSErr.incompleteNewComponentInfo ∧
    componentEntry (emAB.create_entity (CreateInput.newInfos
        [("A", ⟨some [1], some []⟩), ("B", ⟨some [2], none⟩)])).1 "A" 0 =
      some (mkComponent "ClsA" [1] []) ∧
    componentEntry emAB "A" 0 = none := by
  exact ⟨rfl, rfl, rfl⟩

/-- C1 (amended): validation of the component-kind names happens before
any write, so on an unknown-component-kind error the whole store is
unchanged; on any error raised by `create_entity` (in either mode) the
entity table, next-id counter, event queue, pending-removal set and
registrations are unchanged — but the component maps may retain writes
for the components processed before the failing one. -/
theorem C1_create_entity_validation (em : EntityManager) (input : CreateInput) :
    ((∃ n ∈ input.names, em.component_classes n = none) →
      em.create_entity input = (em, Except.error ECSErr.invalidComponentName)) ∧
    (∀ e : ECSErr, (em.create_entity input).2 = Except.error e →
      (em.create_entity input).1.entities = em.entities ∧
      (em.create_entity input).1.next_entity_id = em.next_entity_id ∧
      (em.create_entity input).1.events = em.events ∧
      (em.create_entity input).1.entities_to_remove = em.entities_to_remove ∧
      (em.create_entity input).1.component_classes = em.component_classes) := by
  constructor
  · rintro ⟨n, hn, hnone⟩
    have hinv : ¬ em.is_component_names_valid input.names.toFinset := by
      intro h
      have := h n (List.mem_toFinset.mpr hn)
      rw [hnone] at this
      simp at this
    unfold EntityManager.create_entity
    simp [hinv]
  · intro e he
    obtain ⟨comps, hshape⟩ := create_entity_error_shape em input e he
    rw [hshape]
    exact ⟨rfl, rfl, rfl, rfl, rfl⟩

/-- Witness for C1's amended theorem: validation failure on an
unregistered kind leaves `emAB` untouched, and the incomplete-info
failure of the counterexample input leaves the entity table, counter and
queue untouched. -/
theorem C1_create_entity_validation_witness :
    emAB.create_entity (CreateInput.newInfos [("C", ⟨some [], some []⟩)]) =
      (emAB, Except.error ECSErr.invalidComponentName) ∧
    (emAB.create_entity (CreateInput.newInfos
        [("A", ⟨some [1], some []⟩), ("B", ⟨some [2], none⟩)])).1.entities =
      emAB.entities := by
  constructor
  · exact (C1_create_entity_validation emAB
      (CreateInput.newInfos [("C", ⟨some [], some []⟩)])).1
      ⟨"C", by decide, rfl⟩
  · exact ((C1_create_entity_validation emAB
      (CreateInput.newInfos [("A", ⟨some [1], some []⟩), ("B", ⟨some [2], none⟩)])).2
      ECSErr.incompleteNewComponentInfo rfl).1

/-- C2: the claimed store invariant fails. A successful
`add_component_to_entity(0, "B", ...)` on a store whose entity `0` has
attached set `{"A"}` inserts the `B` instance into the `B` component map
but leaves the attached-kind set at `{"A"}`: kind `B` maps entity `0` to
a value while `B` is not in `0`'s attached-kind set, violating the
consistency invariant (the source never updates `self.entities` in
`add_component_to_entity`). -/
theorem C2_add_component_breaks_invariant :
    (emA1.add_component_to_entity 0 "B" ⟨some [2], some []⟩).2 = Except.ok () ∧
    componentEntry (emA1.add_component_to_entity 0 "B" ⟨some [2], some []⟩).1 "B" 0 =
      some (mkComponent "ClsB" [2] []) ∧
    dlookup 0 (emA1.add_component_to_entity 0 "B" ⟨some [2], some []⟩).1.entities =
      some {"A"} ∧
    "B" ∉ ({"A"} : Finset ComponentName) := by
  refine ⟨rfl, rfl, by decide, by decide⟩

/-- C9: all validation error paths. `create_entity` with an unregistered
kind fails with the unknown-component-kind error leaving the store (in
particular the id counter) unchanged; `get_matching_entities` and
`get_matching_entity` fail the same way when the aspect's `all` set has
an unregistered kind; `get_matching_entity` raises the unknown-entity
error for a dead id, and returns a no-match `none` (not an error) for a
live entity that fails the aspect. -/
theorem C9_validation_and_no_match (em : EntityManager) :
    (∀ input : CreateInput, (∃ n ∈ input.names, em.component_classes n = none) →
      em.create_entity input = (em, Except.error ECSErr.invalidComponentName)) ∧
    (∀ pattern : Aspect, (∃ n ∈ pattern.all, em.component_classes n = none) →
      em.get_matching_entities pattern = Except.error ECSErr.invalidComponentName) ∧
    (∀ (entity_id : EntityID) (pattern : Aspect),
      (∃ n ∈ pattern.all, em.component_classes n = none) →
      em.get_matching_entity entity_id pattern = Except.error ECSErr.invalidComponentName) ∧
    (∀ (entity_id : EntityID) (pattern : Aspect),
      em.is_component_names_valid pattern.all →
      dlookup entity_id em.entities = none →
      em.get_matching_entity entity_id pattern = Except.error ECSErr.invalidEntityID) ∧
    (∀ (entity_id : EntityID) (pattern : Aspect) (attached : Finset ComponentName),
      em.is_component_names_valid pattern.all →
      dlookup entity_id em.entities = some attached →
      ¬ pattern.is_matched attached →
      em.get_matching_entity entity_id pattern = Except.ok none) := by
  have hbad : ∀ (s : Finset ComponentName), (∃ n ∈ s, em.component_classes n = none) →
      ¬ em.is_component_names_valid s := by
    rintro s ⟨n, hn, hnone⟩ h
    have := h n hn
    rw [hnone] at this
    simp at this
  refine ⟨?_, ?_, ?_, ?_, ?_⟩
  · intro input hex
    have hinv : ¬ em.is_component_names_valid input.names.toFinset := by
      obtain ⟨n, hn, hnone⟩ := hex
      exact hbad _ ⟨n, List.mem_toFinset.mpr hn, hnone⟩
    unfold EntityManager.create_entity
    simp [hinv]
  · intro pattern hex
    have hinv := hbad _ hex
    unfold EntityManager.get_matching_entities
    simp [hinv]
  · intro entity_id pattern hex
    have hinv := hbad _ hex
    unfold EntityManager.get_matching_entity
    simp [hinv]
  · intro entity_id pattern hv hnone
    unfold EntityManager.get_matching_entity
    simp [hv, hnone]
  · intro entity_id pattern attached hv hsome hnm
    unfold EntityManager.get_matching_entity
    simp [hv, hsome, hnm]

/-- Witness for C9 on concrete stores: each error path and the no-match
path exercised on `emA1` (entity `0` live with `{"A"}`). -/
theorem C9_validation_and_no_match_witness :
    emAB.create_entity (CreateInput.newInfos [("Zed", ⟨some [], some []⟩)]) =
      (emAB, Except.error ECSErr.invalidComponentName) ∧
    emA1.get_matching_entities (Aspect.ofLists ["Zed"] [] []) =
      Except.error ECSErr.invalidComponentName ∧
    emA1.get_matching_entity 0 (Aspect.ofLists ["Zed"] [] []) =
      Except.error ECSErr.invalidComponentName ∧
    emA1.get_matching_entity 5 (Aspect.ofLists ["A"] [] []) =
      Except.error ECSErr.invalidEntityID ∧
    emA1.get_matching_entity 0 (Aspect.ofLists ["B"] [] []) = Except.ok none := by
  refine ⟨?_, ?_, ?_, ?_, ?_⟩
  · exact (C9_validation_and_no_match emAB).1 _ ⟨"Zed", by decide, rfl⟩
  · exact (C9_validation_and_no_match emA1).2.1 _ ⟨"Zed", by decide, rfl⟩
  · exact (C9_validation_and_no_match emA1).2.2.1 0 _ ⟨"Zed", by decide, rfl⟩
  · exact (C9_validation_and_no_match emA1).2.2.2.1 5 _ (by decide) (by decide)
  · exact (C9_validation_and_no_match emA1).2.2.2.2 0 _ {"A"} (by decide) (by decide)
      (by decide)

theorem centry_fupd_ne (comps : ComponentName → Option (EntityID → Option CompObj))
    (name k : ComponentName) (v : Option (EntityID → Option CompObj)) (eid : EntityID)
    (hk : k ≠ name) : centry (fupd comps name v) k eid = centry comps k eid := by
  simp [centry, fupd, hk]

/-- The deletion loop succeeds on a duplicate-free kind list whose every
entry is present, empties exactly the listed entries of the removed
entity, and touches nothing else. -/
theorem deleteComponents_spec (eid : EntityID) (names : List ComponentName)
    (comps : ComponentName → Option (EntityID → Option CompObj))
    (hnd : names.Nodup)
    (h : ∀ k ∈ names, (centry comps k eid).isSome) :
    (deleteComponents eid names comps).2 = Except.ok () ∧
    (∀ k ∈ names, centry (deleteComponents eid names comps).1 k eid = none) ∧
    (∀ k, k ∉ names → (deleteComponents eid names comps).1 k = comps k) ∧
    (∀ k e', e' ≠ eid →
      centry (deleteComponents eid names comps).1 k e' = centry comps k e') := by
  revert comps hnd h
  induction names with
  | nil =>
    intro comps hnd h
    exact ⟨rfl, by intro k hk; simp at hk, fun k _ => rfl, fun k e' _ => rfl⟩
  | cons name rest ih =>
    intro comps hnd h
    have hn : name ∉ rest := (List.nodup_cons.mp hnd).1
    have hrest : rest.Nodup := (List.nodup_cons.mp hnd).2
    have hname := h name (List.mem_cons_self name rest)
    rcases hm : comps name with _ | cmap
    · rw [centry, hm] at hname
      simp at hname
    · have hsome : (cmap eid).isSome := by
        rw [centry, hm] at hname
        simpa using hname
      have hred : deleteComponents eid (name :: rest) comps =
          deleteComponents eid rest (fupd comps name (some (fupd cmap eid none))) := by
        conv_lhs => rw [deleteComponents]
        rw [hm]
        simp [hsome]
      have h' : ∀ k ∈ rest,
          (centry (fupd comps name (some (fupd cmap eid none))) k eid).isSome := by
        intro k hk
        have hkn : k ≠ name := fun hkeq => hn (hkeq ▸ hk)
        rw [centry_fupd_ne comps name k _ eid hkn]
        exact h k (List.mem_cons_of_mem name hk)
      obtain ⟨ih1, ih2, ih3, ih4⟩ :=
        ih (fupd comps name (some (fupd cmap eid none))) hrest h'
      refine ⟨?_, ?_, ?_, ?_⟩
      · rw [hred]
        exact ih1
      · intro k hk
        rw [hred]
        rcases List.mem_cons.mp hk with hkeq | hkrest
        · subst hkeq
          rw [centry, ih3 k hn]
          simp [fupd]
        · exact ih2 k hkrest
      · intro k hk
        have hkname : k ≠ name := fun he => hk (he ▸ List.mem_cons_self name rest)
        have hkrest : k ∉ rest := fun hr => hk (List.mem_cons_of_mem name hr)
        rw [hred, ih3 k hkrest]
        simp [fupd, hkname]
      · intro k e' he'
        rw [hred, ih4 k e' he']
        by_cases hkn : k = name
        · subst hkn
          rw [centry, centry, hm]
          simp [fupd, he']
        · exact centry_fupd_ne comps name k _ e' hkn

/-- Effects of a successful immediate `remove_entity` on a state whose
target entity is live with every attached component entry present. -/
theorem remove_entity_immediate_spec (em : EntityManager) (entity_id : EntityID)
    (attached : Finset ComponentName)
    (hlk : dlookup entity_id em.entities = some attached)
    (hstore : ∀ k ∈ attached, (componentEntry em k entity_id).isSome) :
    (em.remove_entity entity_id true).2 = Except.ok () ∧
    (em.remove_entity entity_id true).1.entities = derase entity_id em.entities ∧
    (em.remove_entity entity_id true).1.events.events =
      em.events.events ++ [RemoveEntity entity_id] ∧
    (em.remove_entity entity_id true).1.entities_to_remove = em.entities_to_remove ∧
    (em.remove_entity entity_id true).1.next_entity_id = em.next_entity_id ∧
    (em.remove_entity entity_id true).1.component_classes = em.component_classes ∧
    (∀ k e', e' ≠ entity_id →
      componentEntry (em.remove_entity entity_id true).1 k e' = componentEntry em k e') ∧
    (∀ k ∈ attached,
      componentEntry (em.remove_entity entity_id true).1 k entity_id = none) ∧
    (∀ k, k ∉ attached →
      (em.remove_entity entity_id true).1.components k = em.components k) := by
  have hlive : entity_id ∈ em.live_entities := mem_keys_of_dlookup hlk
  have hnd : (setList attached).Nodup := setList_nodup attached
  have hmem : ∀ k, k ∈ setList attached ↔ k ∈ attached := fun k => mem_setList attached k
  have hdel := deleteComponents_spec entity_id (setList attached) em.components hnd
    (fun k hk => hstore k ((hmem k).mp hk))
  obtain ⟨hd1, hd2, hd3, hd4⟩ := hdel
  rcases hloop : deleteComponents entity_id (setList attached) em.components with ⟨comps, r⟩
  rw [hloop] at hd1
  cases r with
  | error e => exact absurd hd1 (by simp)
  | ok u =>
    have hred : em.remove_entity entity_id true =
        ({ em with
            events := em.events.push (RemoveEntity entity_id),
            components := comps,
            entities := derase entity_id em.entities }, Except.ok ()) := by
      unfold EntityManager.remove_entity
      rw [if_pos hlive, if_pos rfl]
      simp only [hlk]
      rw [hloop]
    rw [hred]
    rw [hloop] at hd2 hd3 hd4
    refine ⟨rfl, rfl, rfl, rfl, rfl, rfl, ?_, ?_, ?_⟩
    · intro k e' he'
      exact hd4 k e' he'
    · intro k hk
      exact hd2 k ((hmem k).mpr hk)
    · intro k hk
      exact hd3 k (fun hc => hk ((hmem k).mp hc))

/-- C5: a successful immediate removal of a live entity (on a store whose
component maps are consistent with the attached-kind set for that
entity) leaves the id dead, leaves no component map with an entry for
the id, and makes the next drain of the event queue contain exactly one
`RemoveEntity` event bearing the id (the event is pushed before the
deletions, so it is present even in the partially-deleted error
states). -/
theorem C5_remove_entity_immediate (em : EntityManager) (entity_id : EntityID)
    (attached : Finset ComponentName)
    (hlk : dlookup entity_id em.entities = some attached)
    (hstore : ∀ k ∈ attached, (componentEntry em k entity_id).isSome)
    (horph : ∀ k, k ∉ attached → componentEntry em k entity_id = none)
    (hq : em.events.events.count (RemoveEntity entity_id) = 0) :
    (em.remove_entity entity_id true).2 = Except.ok () ∧
    entity_id ∉ (em.remove_entity entity_id true).1.live_entities ∧
    (∀ k, componentEntry (em.remove_entity entity_id true).1 k entity_id = none) ∧
    (em.remove_entity entity_id true).1.events.get.1.count (RemoveEntity entity_id)
      = 1 := by
  obtain ⟨h1, h2, h3, h4, h5, h6, h7, h8, h9⟩ :=
    remove_entity_immediate_spec em entity_id attached hlk hstore
  refine ⟨h1, ?_, ?_, ?_⟩
  · rw [EntityManager.live_entities, h2]
    exact not_mem_keys_derase entity_id em.entities
  · intro k
    by_cases hk : k ∈ attached
    · exact h8 k hk
    · have hh := horph k hk
      rw [componentEntry, centry] at hh ⊢
      rw [h9 k hk]
      exact hh
  · rw [EntityManagerEventQueue.get, h3, List.count_append, hq]
    simp

/-- Witness for C5: removing entity `0` from the literal one-entity
store succeeds with all the claimed postconditions. -/
theorem C5_remove_entity_immediate_witness :
    (emLit.remove_entity 0 true).2 = Except.ok () ∧
    0 ∉ (emLit.remove_entity 0 true).1.live_entities ∧
    (∀ k, componentEntry (emLit.remove_entity 0 true).1 k 0 = none) ∧
    (emLit.remove_entity 0 true).1.events.get.1.count (RemoveEntity 0) = 1 := by
  refine C5_remove_entity_immediate emLit 0 {"A"} (by decide) (by decide) ?_ (by decide)
  intro k hk
  rw [componentEntry, centry]
  by_cases hb : k = "B"
  · subst hb
    rfl
  · have ha : ¬ k = "A" := by
      intro hc
      exact hk (by rw [hc]; exact Finset.mem_singleton.mpr rfl)
    simp [emLit, ha, hb]

/-- The `remove_queued_entities` loop succeeds when the pending ids are
distinct and each is live with consistent storage, removing each pending
entity and appending one `RemoveEntity` event per pending id, in order,
without touching the pending set itself. -/
theorem removeLoop_spec (pending : List EntityID) (em : EntityManager)
    (hnd : pending.Nodup)
    (h : ∀ id ∈ pending, ∃ attached, dlookup id em.entities = some attached ∧
          ∀ k ∈ attached, (componentEntry em k id).isSome) :
    (removeLoop pending em).2 = Except.ok () ∧
    (∀ id ∈ pending, id ∉ (removeLoop pending em).1.live_entities) ∧
    (∀ id, id ∉ em.live_entities → id ∉ (removeLoop pending em).1.live_entities) ∧
    (removeLoop pending em).1.events.events =
      em.events.events ++ pending.map RemoveEntity ∧
    (removeLoop pending em).1.entities_to_remove = em.entities_to_remove := by
  revert em hnd h
  induction pending with
  | nil =>
    intro em hnd h
    exact ⟨rfl, by simp, fun id hid => hid, by simp [removeLoop], rfl⟩
  | cons eid rest ih =>
    intro em hnd h
    obtain ⟨hn, hrest⟩ := List.nodup_cons.mp hnd
    obtain ⟨attached, hlk, hstore⟩ := h eid (List.mem_cons_self eid rest)
    obtain ⟨r1, r2, r3, r4, r5, r6, r7, r8, r9⟩ :=
      remove_entity_immediate_spec em eid attached hlk hstore
    have hpair : em.remove_entity eid true =
        ((em.remove_entity eid true).1, Except.ok ()) := by
      rw [← r1]
    have hred : removeLoop (eid :: rest) em =
        removeLoop rest (em.remove_entity eid true).1 := by
      conv_lhs => rw [removeLoop]
      rw [hpair]
    have h' : ∀ id ∈ rest, ∃ attached2,
        dlookup id (em.remove_entity eid true).1.entities = some attached2 ∧
        ∀ k ∈ attached2, (componentEntry (em.remove_entity eid true).1 k id).isSome := by
      intro id hid
      have hne : id ≠ eid := fun hc => hn (hc ▸ hid)
      obtain ⟨att2, hlk2, hst2⟩ := h id (List.mem_cons_of_mem eid hid)
      refine ⟨att2, ?_, ?_⟩
      · rw [r2, dlookup_derase_ne eid id em.entities hne]
        exact hlk2
      · intro k hk
        rw [r7 k id hne]
        exact hst2 k hk
    obtain ⟨i1, i2, i3, i4, i5⟩ := ih (em.remove_entity eid true).1 hrest h'
    refine ⟨?_, ?_, ?_, ?_, ?_⟩
    · rw [hred]
      exact i1
    · intro id hid
      rw [hred]
      rcases List.mem_cons.mp hid with hcase | hcase
      · subst hcase
        apply i3
        rw [EntityManager.live_entities, r2]
        exact not_mem_keys_derase id em.entities
      · exact i2 id hcase
    · intro id hid
      rw [hred]
      apply i3
      rw [EntityManager.live_entities, r2]
      intro hmem
      exact hid (mem_keys_derase_mono eid id em.entities hmem)
    · rw [hred, i4, r3]
      simp
    · rw [hred, i5, r4]

/-- C6 counterexample: deferring removal of entity `0`, then removing it
immediately, leaves `0` in the pending set while dead; the subsequent
`remove_queued_entities` call raises the unknown-entity error and does
not clear the pending set — refuting the claim for this store state. -/
def emStale : EntityManager := ((emA1.remove_entity 0 false).1.remove_entity 0 true).1

/-- C6 counterexample theorem: see `emStale`. -/
theorem C6_counterexample :
    emStale.entities_to_remove = [0] ∧
    0 ∉ emStale.live_entities ∧
    emStale.remove_queued_entities.2 = Except.error ECSErr.invalidEntityID ∧
    emStale.remove_queued_entities.1.entities_to_remove = [0] := by
  refine ⟨by decide, by decide, rfl, by decide⟩

/-- C6 (amended): provided every pending id is live (with storage
consistent for it) — which can fail if a deferred-removed entity is
later removed immediately — `remove_queued_entities` immediately removes
every pending entity, emitting one `RemoveEntity` event per id, and
clears the pending set; and deferred `remove_entity(id, False)` on a
live id leaves the id live and the entity table, component maps and
event queue untouched, only recording the id as pending. -/
theorem C6_remove_queued_and_deferred (em : EntityManager)
    (hnd : em.entities_to_remove.Nodup)
    (h : ∀ id ∈ em.entities_to_remove, ∃ attached,
          dlookup id em.entities = some attached ∧
          ∀ k ∈ attached, (componentEntry em k id).isSome) :
    (em.remove_queued_entities.2 = Except.ok () ∧
     em.remove_queued_entities.1.entities_to_remove = [] ∧
     (∀ id ∈ em.entities_to_remove, id ∉ em.remove_queued_entities.1.live_entities) ∧
     em.remove_queued_entities.1.events.events =
       em.events.events ++ em.entities_to_remove.map RemoveEntity) ∧
    (∀ id ∈ em.live_entities,
      (em.remove_entity id false).2 = Except.ok () ∧
      (em.remove_entity id false).1.entities = em.entities ∧
      (em.remove_entity id false).1.components = em.components ∧
      (em.remove_entity id false).1.events = em.events ∧
      id ∈ (em.remove_entity id false).1.live_entities ∧
      id ∈ (em.remove_entity id false).1.entities_to_remove) := by
  obtain ⟨l1, l2, l3, l4, l5⟩ := removeLoop_spec em.entities_to_remove em hnd h
  have hpair : removeLoop em.entities_to_remove em =
      ((removeLoop em.entities_to_remove em).1, Except.ok ()) := by
    rw [← l1]
  have hred : em.remove_queued_entities =
      ({ (removeLoop em.entities_to_remove em).1 with entities_to_remove := [] },
       Except.ok ()) := by
    unfold EntityManager.remove_queued_entities
    rw [hpair]
  constructor
  · refine ⟨by rw [hred], by rw [hred], ?_, ?_⟩
    · intro id hid
      rw [hred]
      exact l2 id hid
    · rw [hred]
      exact l4
  · intro id hid
    have hred2 : em.remove_entity id false =
        ({ em with entities_to_remove :=
            if id ∈ em.entities_to_remove then em.entities_to_remove
            else em.entities_to_remove ++ [id] }, Except.ok ()) := by
      unfold EntityManager.remove_entity
      rw [if_pos hid]
      rfl
    rw [hred2]
    refine ⟨rfl, rfl, rfl, rfl, hid, ?_⟩
    by_cases hp : id ∈ em.entities_to_remove
    · rw [if_pos hp]
      exact hp
    · rw [if_neg hp]
      simp

/-- `emLit` with entity `0` pending removal, a witness state for C6. -/
def emLitPending : EntityManager := { emLit with entities_to_remove := [0] }

/-- Witness for C6's amended theorem on `emLitPending`. -/
theorem C6_remove_queued_and_deferred_witness :
    emLitPending.remove_queued_entities.2 = Except.ok () ∧
    emLitPending.remove_queued_entities.1.entities_to_remove = [] ∧
    ((emLitPending.remove_entity 0 false).2 = Except.ok () ∧
     (emLitPending.remove_entity 0 false).1.entities = emLitPending.entities ∧
     (emLitPending.remove_entity 0 false).1.components = emLitPending.components ∧
     (emLitPending.remove_entity 0 false).1.events = emLitPending.events ∧
     0 ∈ (emLitPending.remove_entity 0 false).1.live_entities ∧
     0 ∈ (emLitPending.remove_entity 0 false).1.entities_to_remove) := by
  have hh : ∀ id ∈ emLitPending.entities_to_remove, ∃ attached,
      dlookup id emLitPending.entities = some attached ∧
      ∀ k ∈ attached, (componentEntry emLitPending k id).isSome := by
    intro id hid
    have hid0 : id = 0 := by
      simpa [emLitPending, emLit] using hid
    subst hid0
    exact ⟨{"A"}, by decide, by decide⟩
  have h := C6_remove_queued_and_deferred emLitPending (by decide) hh
  exact ⟨h.1.1, h.1.2.1, h.2 0 (by decide)⟩

/- The game state machine (states.py). -/

/-- A `GameState` as the machine sees it: its `name`, its `next_state`
successor (held by name; Python stores the state object and reads
`.name` — `none` models `next_state = None`, whose `.name` access raises
`AttributeError`), and its `done` flag. The abstract `setup` / `cleanup`
/ `update` bodies are recorded as emitted `SMCall`s. -/
structure GameState where
  name : String
  next_state : Option String
  done : Bool
deriving DecidableEq

/-- One delegated method call performed by the machine, identifying the
state object it is invoked on by that object's `name`. -/
inductive SMCall where
  | cleanup (state_name : String)
  | setup (state_name : String)
  | update (state_name : String)
deriving DecidableEq

/-- Errors of states.py: `StateMachineError` on a bad initial state,
`attributeError` for `None.name`, `keyError` for a `self.states[...]`
miss. -/
inductive SMErr where
  | stateMachineError
  | attributeError
  | keyError
deriving DecidableEq

/-- `GameStateMachine` state: the `states` dict and the active state.
Python holds the active state object directly and mutates it in place
(it is always one of the dict's values, so the in-place `done = False`
write is visible through the dict); the model holds its key and updates
the dict entry. -/
structure GameStateMachine where
  states : List (String × GameState)
  current : String
deriving DecidableEq

/-- `GameStateMachine.__init__`: fails with `StateMachineError` when
`init_state` is not a registered state name. -/
def GameStateMachine.init (states : List (String × GameState)) (init_state : String) :
    Except SMErr GameStateMachine :=
  match dlookup init_state states with
  | some _ => Except.ok ⟨states, init_state⟩
  | none => Except.error SMErr.stateMachineError

/-- `change_state`: read the successor's name from
`self.state.next_state.name`, call `cleanup` on the outgoing state,
reset its `done` flag to `False`, swap `self.state` to
`self.states[next_state]`, then call `setup` on the incoming state.
Returns the new machine, the delegated calls in order, and the error if
one is raised (the none-branch on the current key is unreachable in
Python, which holds the state object directly). -/
def GameStateMachine.change_state (m : GameStateMachine) :
    GameStateMachine × List SMCall × Except SMErr Unit :=
  match dlookup m.current m.states with
  | none => (m, [], Except.error SMErr.keyError)
  | some cur =>
    match cur.next_state with
    | none => (m, [], Except.error SMErr.attributeError)
    | some nxt =>
      let states1 := dinsert m.current { cur with done := false } m.states
      match dlookup nxt states1 with
      | none => ({ m with states := states1 }, [SMCall.cleanup cur.name],
                 Except.error SMErr.keyError)
      | some nxtState =>
        ({ states := states1, current := nxt },
         [SMCall.cleanup cur.name, SMCall.setup nxtState.name], Except.ok ())

/-- `update_state`: when the active state's `done` flag is set, perform
`change_state`, then delegate `update` to the (possibly new) active
state. -/
def GameStateMachine.update_state (m : GameStateMachine) :
    GameStateMachine × List SMCall × Except SMErr Unit :=
  match dlookup m.current m.states with
  | none => (m, [], Except.error SMErr.keyError)
  | some cur =>
    if cur.done then
      match m.change_state with
      | (m1, trace, Except.ok _) =>
        match dlookup m1.current m1.states with
        | some newState => (m1, trace ++ [SMCall.update newState.name], Except.ok ())
        | none => (m1, trace, Except.error SMErr.keyError)
      | (m1, trace, Except.error e) => (m1, trace, Except.error e)
    else (m, [SMCall.update cur.name], Except.ok ())

/-- C8: when the active state has `done = true` and names a registered
successor, one `update_state` call performs, in this order: `cleanup` of
the outgoing state, reset of the outgoing state's `done` flag to
`false`, swap of the active state to the successor, `setup` of the
incoming state, and finally `update` delegated to the new active state;
when `done = false`, `update_state` only delegates `update` to the
active state and changes nothing. -/
theorem C8_update_state_transition (m : GameStateMachine) (cur : GameState)
    (hcur : dlookup m.current m.states = some cur) :
    (∀ nxt : String, cur.done = true → cur.next_state = some nxt →
      (dlookup nxt m.states).isSome →
      ∃ nxtState,
        dlookup nxt (dinsert m.current { cur with done := false } m.states) =
          some nxtState ∧
        m.update_state =
          ({ states := dinsert m.current { cur with done := false } m.states,
             current := nxt },
           [SMCall.cleanup cur.name, SMCall.setup nxtState.name,
            SMCall.update nxtState.name],
           Except.ok ()) ∧
        dlookup m.current (dinsert m.current { cur with done := false } m.states) =
          some { cur with done := false }) ∧
    (cur.done = false →
      m.update_state = (m, [SMCall.update cur.name], Except.ok ())) := by
  constructor
  · intro nxt hdone hnext hreg
    obtain ⟨s0, hs0⟩ := Option.isSome_iff_exists.mp hreg
    have hns : ∃ ns, dlookup nxt (dinsert m.current { cur with done := false } m.states) =
        some ns := by
      by_cases hc : nxt = m.current
      · subst hc
        exact ⟨{ cur with done := false }, dlookup_dinsert_self _ _ _⟩
      · refine ⟨s0, ?_⟩
        rw [dlookup_dinsert_ne m.current nxt _ m.states hc]
        exact hs0
    obtain ⟨ns, hnslk⟩ := hns
    have hnslk2 : dlookup nxt (dinsert m.current
        { name := cur.name, next_state := some nxt, done := false } m.states) = some ns := by
      rw [← hnext]
      exact hnslk
    refine ⟨ns, hnslk, ?_, dlookup_dinsert_self _ _ _⟩
    have hcs : m.change_state =
        ({ states := dinsert m.current { cur with done := false } m.states,
           current := nxt },
         [SMCall.cleanup cur.name, SMCall.setup ns.name], Except.ok ()) := by
      unfold GameStateMachine.change_state
      rw [hcur]
      simp only [hnext]
      rw [hnslk2]
    unfold GameStateMachine.update_state
    rw [hcur]
    simp only [hdone, if_true]
    rw [hcs]
    dsimp only
    rw [hnslk]
    rfl
  · intro hdone
    unfold GameStateMachine.update_state
    rw [hcur]
    simp [hdone]

/-- States for the C8 witness: `A` is done and names `B`, `B` is not
done. -/
def gsA : GameState := ⟨"A", some "B", true⟩

/-- Successor state for the C8 witness. -/
def gsB : GameState := ⟨"B", none, false⟩

/-- The C8 witness machine, active at `A`. -/
def smAB : GameStateMachine := ⟨[("A", gsA), ("B", gsB)], "A"⟩

/-- Witness for C8: the concrete machine transitions from `A` to `B`
with the claimed call order and flag reset, and a machine whose active
state is not done only delegates `update`. -/
theorem C8_update_state_transition_witness :
    (∃ nxtState,
      dlookup "B" (dinsert "A" { gsA with done := false } smAB.states) = some nxtState ∧
      smAB.update_state =
        ({ states := dinsert "A" { gsA with done := false } smAB.states, current := "B" },
         [SMCall.cleanup gsA.name, SMCall.setup nxtState.name,
          SMCall.update nxtState.name],
         Except.ok ()) ∧
      dlookup "A" (dinsert "A" { gsA with done := false } smAB.states) =
        some { gsA with done := false }) ∧
    (⟨[("A", gsA), ("B", gsB)], "B"⟩ : GameStateMachine).update_state =
      (⟨[("A", gsA), ("B", gsB)], "B"⟩, [SMCall.update gsB.name], Except.ok ()) := by
  constructor
  · exact (C8_update_state_transition smAB gsA (by decide)).1 "B" rfl rfl (by decide)
  · exact (C8_update_state_transition ⟨[("A", gsA), ("B", gsB)], "B"⟩ gsB
      (by decide)).2 rfl

/-- A reachable store with an orphan component entry: entity `0` has
attached set `{"A"}` but, through `add_component_to_entity`, also an
entry in the `B` component map (see C2). -/
def emOrphan : EntityManager :=
  (emA1.add_component_to_entity 0 "B" ⟨some [2], some []⟩).1

/-- C5 counterexample: on the reachable store `emOrphan`, immediate
removal of the live entity `0` returns successfully and `0` leaves
`live_entities`, but the `B` component map still has an entry for `0`:
the deletion loop only walks the attached-kind set, so "no component
map has an entry for the id" fails on stores whose consistency invariant
was broken by `add_component_to_entity`. -/
theorem C5_counterexample :
    0 ∈ emOrphan.live_entities ∧
    (emOrphan.remove_entity 0 true).2 = Except.ok () ∧
    0 ∉ (emOrphan.remove_entity 0 true).1.live_entities ∧
    componentEntry (emOrphan.remove_entity 0 true).1 "B" 0 =
      some (mkComponent "ClsB" [2] []) := by
  refine ⟨by decide, rfl, by decide, rfl⟩
